import Mathlib

/-!
Shallow embedding of the asuna microservice bootstrap layer
(`src/execute.ts`, `src/init/instance.ts`, `src/init/worker.ts`,
`src/init/cache.ts`, `src/init/mysql.ts`, `src/init/queue.ts`) together
with theorems settling the frozen behavioural claims about it.

JavaScript plain objects are modelled as ordered key/value lists with
last-assignment-wins lookup, JS numbers as an inductive over `ℚ` with
explicit `NaN`/infinity points, and the event-loop effects of each
function (messages posted, log lines written, `process.exit` calls) as
explicit output fields of otherwise pure Lean functions.
-/

namespace Asuna

/-! ## JS values and plain objects -/

/-- A JavaScript value as far as the orchestrator inspects one:
strings (message types, reasons) and opaque payload data tagged by a
number. -/
inductive JsVal where
  | str (s : String)
  | data (n : Nat)
  deriving DecidableEq, Repr

/-- A JS plain object: its ordered list of key/value assignments.
An object literal writes its entries left to right, so a later
assignment to the same key overwrites an earlier one. -/
abbrev JsObj : Type := List (String × JsVal)

/-- Property lookup: the value of the last assignment to `k`, or
`none` when the key is absent (JS `undefined`). -/
def JsObj.get (o : JsObj) (k : String) : Option JsVal :=
  List.foldl (fun acc e => if e.1 = k then some e.2 else acc) none o

/-- The object literal `{ ...a, ...b }`: `a`'s assignments, then `b`'s. -/
def JsObj.spread (a b : JsObj) : JsObj :=
  List.append a b

theorem JsObj.foldl_get (b : JsObj) (k : String) (init : Option JsVal) :
    List.foldl (fun acc e => if e.1 = k then some e.2 else acc) init b
      = match b.get k with
        | some v => some v
        | none => init := by
  induction b generalizing init with
  | nil => rfl
  | cons e tl ih =>
    show List.foldl _ (if e.1 = k then some e.2 else init) tl = _
    rw [ih]
    have hget : JsObj.get (e :: tl) k
        = match JsObj.get tl k with
          | some v => some v
          | none => if e.1 = k then some e.2 else none := by
      show List.foldl _ (if e.1 = k then some e.2 else none) tl = _
      rw [ih]
    rw [hget]
    cases JsObj.get tl k with
    | some v => rfl
    | none => by_cases h : e.1 = k <;> simp [h]

theorem JsObj.get_spread (a b : JsObj) (k : String) :
    (a.spread b).get k = match b.get k with
      | some v => some v
      | none => a.get k := by
  show List.foldl _ _ (a ++ b) = _
  rw [List.foldl_append]
  exact JsObj.foldl_get b k _

/-- The function `toMessage(type, payload)` from `src/init/instance.ts`
(`return { type, ...payload };`): the literal writes the `type` field
first and then spreads the payload over it. -/
def toMessage (type : String) (payload : JsObj) : JsObj :=
  JsObj.spread [("type", JsVal.str type)] payload

/-! ## C10: a payload field named `type` masks the type argument -/

/-- C10. `toMessage(t, p)` spreads `p` after the `type` field: when `p`
binds a key `"type"` the resulting message's `type` is `p`'s value, not
`t`; when `p` has no `"type"` key the result is `{type: t}` spread with
`p` and its `type` is `t`. -/
theorem C10_toMessage_type_masking (t : String) (p : JsObj) :
    (∀ v, p.get "type" = some v → (toMessage t p).get "type" = some v)
    ∧ (p.get "type" = none →
        (toMessage t p).get "type" = some (JsVal.str t))
    ∧ toMessage t p = JsObj.spread [("type", JsVal.str t)] p := by
  refine ⟨fun v hv => ?_, fun hv => ?_, rfl⟩
  · rw [toMessage, JsObj.get_spread, hv]
  · rw [toMessage, JsObj.get_spread, hv]
    rfl

/-- Witness for C10 at concrete inputs: a payload that binds `"type"`
masks the argument, and an empty payload leaves the argument in place. -/
theorem C10_toMessage_type_masking_witness :
    (toMessage "shutdown" [("type", JsVal.str "hijacked")]).get "type"
        = some (JsVal.str "hijacked")
    ∧ (toMessage "shutdown" []).get "type" = some (JsVal.str "shutdown") :=
  ⟨(C10_toMessage_type_masking "shutdown" [("type", JsVal.str "hijacked")]).1
      (JsVal.str "hijacked") (by decide),
   (C10_toMessage_type_masking "shutdown" []).2.1 (by decide)⟩

/-! ## JS numbers and the environment read by `src/execute.ts` -/

/-- A JavaScript number: `NaN`, the two infinities, or a finite value
(the claims only inspect `Number.isInteger` and sign, for which the
exact binary64 grid is irrelevant, so finite values are rationals). -/
inductive JsNumber where
  | nan
  | posInf
  | negInf
  | num (q : ℚ)
  deriving DecidableEq, Repr

/-- JS `Number.isInteger(x)`. -/
def JsNumber.isInteger : JsNumber → Bool
  | .num q => q.den = 1
  | _ => false

/-- JS `x > 0`. -/
def JsNumber.gtZero : JsNumber → Bool
  | .num q => 0 < q
  | .posInf => true
  | _ => false

/-- The integer value of a JS number known to be an integer
(junk elsewhere). -/
def JsNumber.intVal : JsNumber → ℤ
  | .num q => q.num
  | _ => 0

/-- The environment `asunaCores` reads: `envCount` is the value of
`Number(Bun.env.ASUNA_CORES)` (`NaN` when the variable is absent or
non-numeric), `hardwareConcurrency` is `navigator.hardwareConcurrency`
with `0` standing for a zero or unavailable report. -/
structure Env where
  envCount : JsNumber
  hardwareConcurrency : ℕ
  deriving DecidableEq, Repr

/-- The function `asunaCores()` from `src/execute.ts`:
`if (Number.isInteger(envCount) && envCount > 0) return envCount;
return navigator.hardwareConcurrency || 1;`
(`|| 1` replaces the falsy report `0` by `1`). -/
def asunaCores (env : Env) : ℤ :=
  if env.envCount.isInteger && env.envCount.gtZero then
    env.envCount.intVal
  else if env.hardwareConcurrency = 0 then 1 else (env.hardwareConcurrency : ℤ)

/-! ## C7: worker-count decision -/

/-- C7. `asunaCores()` returns the configured override when it parses
to a positive integer; in every other environment it returns the
reported hardware concurrency with `1` substituted for a zero or
unavailable report; and the result is always at least `1`. -/
theorem C7_asunaCores_decision (env : Env) :
    (∀ n : ℤ, env.envCount = JsNumber.num (n : ℚ) → 0 < n →
        asunaCores env = n)
    ∧ ((env.envCount.isInteger && env.envCount.gtZero) = false →
        asunaCores env
          = if env.hardwareConcurrency = 0 then 1
            else (env.hardwareConcurrency : ℤ))
    ∧ 1 ≤ asunaCores env := by
  refine ⟨fun n hval hpos => ?_, fun hfall => ?_, ?_⟩
  · have hint : env.envCount.isInteger = true := by
      rw [hval]; simp [JsNumber.isInteger]
    have hgt : env.envCount.gtZero = true := by
      rw [hval]; simp only [JsNumber.gtZero, decide_eq_true_eq]
      exact_mod_cast hpos
    rw [asunaCores, hint, hgt, hval]
    simp [JsNumber.intVal]
  · rw [asunaCores, hfall]
    simp
  · rw [asunaCores]
    by_cases hgate : (env.envCount.isInteger && env.envCount.gtZero) = true
    · rw [if_pos hgate]
      rcases Bool.and_eq_true_iff.mp hgate with ⟨hint, hgt⟩
      cases hc : env.envCount with
      | num q =>
        rw [hc] at hint hgt
        simp only [JsNumber.isInteger, decide_eq_true_eq] at hint
        simp only [JsNumber.gtZero, decide_eq_true_eq] at hgt
        show 1 ≤ q.num
        exact Rat.num_pos.mpr hgt
      | nan => rw [hc] at hint; simp [JsNumber.isInteger] at hint
      | posInf => rw [hc] at hint; simp [JsNumber.isInteger] at hint
      | negInf => rw [hc] at hint; simp [JsNumber.isInteger] at hint
    · rw [if_neg hgate]
      by_cases hz : env.hardwareConcurrency = 0
      · simp [hz]
      · rw [if_neg hz]
        exact_mod_cast Nat.one_le_iff_ne_zero.mpr hz

/-- Witness for C7: with `ASUNA_CORES=4` the count is `4`; with an
absent variable (`NaN`) and concurrency `8` it is `8`; with an absent
variable and an unavailable report it is `1`. -/
theorem C7_asunaCores_decision_witness :
    asunaCores ⟨JsNumber.num (4 : ℚ), 8⟩ = 4
    ∧ asunaCores ⟨JsNumber.nan, 8⟩ = 8
    ∧ asunaCores ⟨JsNumber.nan, 0⟩ = 1 :=
  ⟨(C7_asunaCores_decision ⟨JsNumber.num (4 : ℚ), 8⟩).1 4 (by norm_num)
      (by decide),
   ((C7_asunaCores_decision ⟨JsNumber.nan, 8⟩).2.1 (by decide)).trans (by decide),
   ((C7_asunaCores_decision ⟨JsNumber.nan, 0⟩).2.1 (by decide)).trans (by decide)⟩

/-! ## Decimal rendering of worker indices

`execute()` keys each worker with the template literal `worker#${i}`,
whose numeric part is the decimal rendering of `i` (`Nat.repr` in this
embedding).  The claims need that distinct indices yield distinct keys,
so we characterise `Nat.toDigitsCore` by the value its digit run
denotes and derive injectivity of `Nat.repr`. -/

/-- The numeric value of a decimal digit character (`'0'` is code 48). -/
def decDigitVal (c : Char) : ℕ := c.toNat - 48

/-- The number denoted by a run of decimal digit characters. -/
def decVal (cs : List Char) : ℕ :=
  cs.foldl (fun a c => 10 * a + decDigitVal c) 0

theorem decDigitVal_digitChar {m : ℕ} (hm : m < 10) :
    decDigitVal (Nat.digitChar m) = m := by
  interval_cases m <;> decide

theorem toDigitsCore_decVal (fuel : ℕ) : ∀ (n : ℕ) (acc : List Char),
    n < fuel →
    ∃ ds : List Char, Nat.toDigitsCore 10 fuel n acc = ds ++ acc
      ∧ ds ≠ [] ∧ decVal ds = n := by
  induction fuel with
  | zero => intro n acc h; exact absurd h (Nat.not_lt_zero n)
  | succ fuel ih =>
    intro n acc hn
    have hunf : Nat.toDigitsCore 10 (fuel + 1) n acc
        = if n / 10 = 0 then Nat.digitChar (n % 10) :: acc
          else Nat.toDigitsCore 10 fuel (n / 10)
                 (Nat.digitChar (n % 10) :: acc) := rfl
    by_cases h10 : n / 10 = 0
    · refine ⟨[Nat.digitChar (n % 10)], ?_, by simp, ?_⟩
      · rw [hunf, if_pos h10]; rfl
      · have hv : decVal [Nat.digitChar (n % 10)] = n % 10 := by
          show 10 * 0 + decDigitVal (Nat.digitChar (n % 10)) = n % 10
          rw [decDigitVal_digitChar (show n % 10 < 10 by omega)]
          omega
        rw [hv]; omega
    · obtain ⟨ds, hds, hne, hval⟩ :=
        ih (n / 10) (Nat.digitChar (n % 10) :: acc) (by omega)
      refine ⟨ds ++ [Nat.digitChar (n % 10)], ?_, by simp, ?_⟩
      · rw [hunf, if_neg h10, hds, List.append_assoc]; rfl
      · show List.foldl _ 0 (ds ++ [Nat.digitChar (n % 10)]) = n
        rw [List.foldl_append]
        show 10 * decVal ds + decDigitVal (Nat.digitChar (n % 10)) = n
        rw [hval, decDigitVal_digitChar (show n % 10 < 10 by omega)]
        omega

theorem toDigits_decVal (n : ℕ) : decVal (Nat.toDigits 10 n) = n := by
  obtain ⟨ds, hds, _, hval⟩ :=
    toDigitsCore_decVal (n + 1) n [] (Nat.lt_succ_self n)
  rw [Nat.toDigits, hds, List.append_nil]
  exact hval

theorem natRepr_injective : Function.Injective Nat.repr := by
  intro a b h
  have hdig : Nat.toDigits 10 a = Nat.toDigits 10 b := by
    have hd := congrArg String.data h
    simpa [Nat.repr, List.asString] using hd
  calc a = decVal (Nat.toDigits 10 a) := (toDigits_decVal a).symm
    _ = decVal (Nat.toDigits 10 b) := by rw [hdig]
    _ = b := toDigits_decVal b

/-- The stable key of worker `i`: the template literal `worker#${i}`. -/
def workerKey (i : ℕ) : String := "worker#" ++ Nat.repr i

theorem workerKey_injective : Function.Injective workerKey := by
  intro a b h
  apply natRepr_injective
  have hd := congrArg String.data h
  simp only [workerKey, String.data_append] at hd
  exact String.ext (List.append_cancel_left hd)

/-! ## `execute()` from `src/execute.ts` -/

/-- An observable step of `execute()`: spawning one worker (the
`new Worker` / `postMessage(toMessage('startup', ctx))` /
`workerPool.set(key, worker)` loop body) or the final
`process.send('ready')` notification. -/
inductive ExecEvent where
  | spawned (key : String) (startup : JsObj)
  | ready
  deriving DecidableEq, Repr

/-- What `execute()` produces: the worker-pool map (insertion-ordered
key/handle pairs; handles are opaque and identified by spawn index)
and the event trace. -/
structure ExecResult where
  workerPool : List (String × ℕ)
  events : List ExecEvent
  deriving DecidableEq, Repr

/-- The function `execute()`: after awaiting the init promises it runs
`for (let i = 0; i < workerCount; i++)` with
`workerCount = asunaCores()`, posting each fresh worker an identical
`startup` message carrying the frozen context, then emits `ready`. -/
def execute (env : Env) (ctx : JsObj) : ExecResult :=
  let workerCount := (asunaCores env).toNat
  { workerPool := (List.range workerCount).map (fun i => (workerKey i, i))
    events :=
      (List.range workerCount).map
        (fun i => ExecEvent.spawned (workerKey i) (toMessage "startup" ctx))
      ++ [ExecEvent.ready] }

theorem asunaCores_posInt (env : Env) (N : ℕ)
    (h : env.envCount = JsNumber.num (N : ℚ)) (hN : 1 ≤ N) :
    asunaCores env = (N : ℤ) := by
  have hint : env.envCount.isInteger = true := by
    rw [h]; simp [JsNumber.isInteger]
  have hgt : env.envCount.gtZero = true := by
    rw [h]; simp only [JsNumber.gtZero, decide_eq_true_eq]
    exact_mod_cast hN
  rw [asunaCores, hint, hgt, h]
  show ((N : ℚ)).num = (N : ℤ)
  exact Rat.num_natCast N

/-! ## C8: the worker pool produced by `execute()` -/

/-- C8. For a positive integer override `N`, `execute()` returns a
pool of exactly `N` workers keyed `worker#0 .. worker#(N-1)` (all keys
distinct), and the `ready` notification is the last event, after every
spawn. -/
theorem C8_execute_pool (env : Env) (ctx : JsObj) (N : ℕ)
    (h : env.envCount = JsNumber.num (N : ℚ)) (hN : 1 ≤ N) :
    (execute env ctx).workerPool.length = N
    ∧ (execute env ctx).workerPool.map Prod.fst
        = (List.range N).map workerKey
    ∧ ((execute env ctx).workerPool.map Prod.fst).Nodup
    ∧ (execute env ctx).events.getLast? = some ExecEvent.ready
    ∧ ∀ i < N,
        ExecEvent.spawned (workerKey i) (toMessage "startup" ctx)
          ∈ (execute env ctx).events.dropLast := by
  have hcount : (asunaCores env).toNat = N := by
    rw [asunaCores_posInt env N h hN]; exact Int.toNat_natCast N
  refine ⟨?_, ?_, ?_, ?_, ?_⟩
  · simp [execute, hcount]
  · simp only [execute, hcount, List.map_map]
    rfl
  · simp only [execute, hcount, List.map_map]
    exact (List.nodup_range N).map
      (fun a b hab => workerKey_injective hab)
  · simp only [execute, hcount]
    exact List.getLast?_concat _
  · intro i hi
    simp only [execute, hcount, List.dropLast_concat]
    exact List.mem_map.mpr ⟨i, List.mem_range.mpr hi, rfl⟩

/-- Witness for C8 at override `N = 2`. -/
theorem C8_execute_pool_witness :
    (execute ⟨JsNumber.num ((2 : ℕ) : ℚ), 0⟩ []).workerPool.length = 2
    ∧ ((execute ⟨JsNumber.num ((2 : ℕ) : ℚ), 0⟩ []).workerPool.map
        Prod.fst).Nodup
    ∧ (execute ⟨JsNumber.num ((2 : ℕ) : ℚ), 0⟩ []).events.getLast?
        = some ExecEvent.ready := by
  have h := C8_execute_pool ⟨JsNumber.num ((2 : ℕ) : ℚ), 0⟩ [] 2 rfl
    (by norm_num)
  exact ⟨h.1, h.2.2.1, h.2.2.2.1⟩

/-! ## The connection pool of `src/init/instance.ts` -/

/-- A registered closable connection: `close()` resolves when
`closeFailure = none` and rejects with the given reason otherwise. -/
structure InstanceConnection where
  id : ℕ
  closeFailure : Option String
  deriving DecidableEq, Repr

/-- The function `addInstanceConnection(connection)`: appends to the
`ConnectionPool` list held in the instance context. -/
def addInstanceConnection (pool : List InstanceConnection)
    (c : InstanceConnection) : List InstanceConnection :=
  pool ++ [c]

/-- What a run of `closeInstanceConnections()` did: which connections'
`close()` was invoked (in order), and the rejection, if any, that the
function itself propagates to its caller. -/
structure CloseOutcome where
  closeCalls : List ℕ
  thrown : Option String
  deriving DecidableEq, Repr

/-- The function `closeInstanceConnections()` from `src/init/instance.ts`:
`for (const connection of pool) { await connection.close(); }` —
a sequential loop with no try/catch, so a rejecting `close()` ends the
loop and rejects the whole function. -/
def closeInstanceConnections : List InstanceConnection → CloseOutcome
  | [] => ⟨[], none⟩
  | c :: rest =>
    match c.closeFailure with
    | some e => ⟨[c.id], some e⟩
    | none =>
      let o := closeInstanceConnections rest
      ⟨c.id :: o.closeCalls, o.thrown⟩

/-! ## C3: closing the pool on a failing connection -/

/-- Counterexample to C3 as stated: with a pool of two connections
whose first `close()` rejects, the second connection is never closed
and the rejection propagates to the caller — close failures are
neither isolated nor collected. -/
theorem C3_closeInstanceConnections_cex :
    (closeInstanceConnections
        [⟨0, some "boom"⟩, ⟨1, none⟩]).closeCalls = [0]
    ∧ 1 ∉ (closeInstanceConnections
        [⟨0, some "boom"⟩, ⟨1, none⟩]).closeCalls
    ∧ (closeInstanceConnections
        [⟨0, some "boom"⟩, ⟨1, none⟩]).thrown = some "boom" := by
  refine ⟨rfl, ?_, rfl⟩
  decide

/-- C3 as amended: `closeInstanceConnections` closes the registered
connections sequentially in registration order only up to the first
failing `close()`; that failure is thrown to the caller and the
remaining connections are not closed.  When every `close()` resolves,
every connection is closed in order and nothing is thrown. -/
theorem C3_closeInstanceConnections_sequential :
    (∀ pool : List InstanceConnection,
      (∀ c ∈ pool, c.closeFailure = none) →
      closeInstanceConnections pool = ⟨pool.map InstanceConnection.id, none⟩)
    ∧ ∀ (a b : List InstanceConnection) (c : InstanceConnection)
        (e : String),
        (∀ x ∈ a, x.closeFailure = none) → c.closeFailure = some e →
        closeInstanceConnections (a ++ c :: b)
          = ⟨a.map InstanceConnection.id ++ [c.id], some e⟩ := by
  constructor
  · intro pool hok
    induction pool with
    | nil => rfl
    | cons c rest ih =>
      have hc : c.closeFailure = none := hok c (List.mem_cons_self c rest)
      simp only [closeInstanceConnections, hc,
        ih (fun x hx => hok x (List.mem_cons_of_mem c hx)), List.map_cons]
  · intro a b c e hok hc
    induction a with
    | nil => simp only [List.nil_append, closeInstanceConnections, hc,
        List.map_nil, List.nil_append]
    | cons x rest ih =>
      have hx : x.closeFailure = none := hok x (List.mem_cons_self x rest)
      simp only [List.cons_append, closeInstanceConnections, hx,
        List.append_eq, ih (fun y hy => hok y (List.mem_cons_of_mem x hy)),
        List.map_cons, List.cons_append]

/-- Witness for C3's amended statement: an all-succeeding pool closes
fully, and a pool whose second connection fails stops there. -/
theorem C3_closeInstanceConnections_sequential_witness :
    closeInstanceConnections [⟨0, none⟩, ⟨1, none⟩] = ⟨[0, 1], none⟩
    ∧ closeInstanceConnections [⟨0, none⟩, ⟨1, some "late"⟩, ⟨2, none⟩]
        = ⟨[0, 1], some "late"⟩ := by
  constructor
  · exact C3_closeInstanceConnections_sequential.1
      [⟨0, none⟩, ⟨1, none⟩] (by decide)
  · exact C3_closeInstanceConnections_sequential.2
      [⟨0, none⟩] [⟨2, none⟩] ⟨1, some "late"⟩ "late" (by decide) rfl

/-! ## Exit handlers (`runExitHandlers` in `src/init/instance.ts`) -/

/-- How a registered callback behaves when invoked: return or resolve
normally, return a promise that later rejects with a reason, or throw
synchronously during the call itself. -/
inductive CallbackBehavior where
  | ok
  | rejectLater (e : String)
  | throwNow (e : String)
  deriving DecidableEq, Repr

def CallbackBehavior.throwsNow : CallbackBehavior → Bool
  | .throwNow _ => true
  | _ => false

/-- The settled outcome a well-started callback contributes to
`Promise.allSettled`: `none` for fulfilled, the reason for rejected. -/
def CallbackBehavior.rejectReason : CallbackBehavior → Option String
  | .rejectLater e => some e
  | _ => none

/-- An exit handler registered via `onExit`. -/
structure ExitCallback where
  id : ℕ
  behavior : CallbackBehavior
  deriving DecidableEq, Repr

/-- The expression `exitHandlers.map((f) => f())`: invokes the callbacks left to
right.  A synchronous throw escapes `map` immediately — later
callbacks are never invoked and no promise list is produced; otherwise
every callback starts and the list of its settled outcomes results. -/
def invokeExitHandlers : List ExitCallback →
    List ℕ × Except String (List (ℕ × Option String))
  | [] => ([], Except.ok [])
  | h :: rest =>
    match h.behavior with
    | .throwNow e => ([h.id], Except.error e)
    | _ =>
      let o := invokeExitHandlers rest
      (h.id :: o.1, o.2.map (fun settled => (h.id, h.behavior.rejectReason) :: settled))

/-- What one run of `runExitHandlers()` did. -/
structure ExitRun where
  invoked : List ℕ
  logs : List String
  closeStarted : Bool
  closeCalls : List ℕ
  thrown : Option String
  deriving DecidableEq, Repr

/-- The function `runExitHandlers()` from `src/init/instance.ts`: builds the
promise list with `map`, awaits `Promise.allSettled`, logs every
rejected result as `[Exit Handler Error] reason`, then awaits
`closeInstanceConnections()`.  A synchronous throw inside `map`
rejects the whole function before `allSettled` is reached. -/
def runExitHandlers (handlers : List ExitCallback)
    (pool : List InstanceConnection) : ExitRun :=
  match invokeExitHandlers handlers with
  | (inv, Except.error e) => ⟨inv, [], false, [], some e⟩
  | (inv, Except.ok settled) =>
    let logs := settled.filterMap
      (fun s => s.2.map (fun e => "[Exit Handler Error] " ++ e))
    let co := closeInstanceConnections pool
    ⟨inv, logs, true, co.closeCalls, co.thrown⟩

/-! ## C9: exit-handler failures during shutdown -/

/-- Counterexample to C9 as stated: an exit handler that throws
synchronously aborts the shutdown sequence — the remaining handler is
never invoked, the failure is not logged, the connection-close phase
never runs, and the error propagates. -/
theorem C9_runExitHandlers_cex :
    runExitHandlers [⟨0, CallbackBehavior.throwNow "boom"⟩,
        ⟨1, CallbackBehavior.ok⟩] [⟨7, none⟩]
      = ⟨[0], [], false, [], some "boom"⟩ := by
  decide

theorem invokeExitHandlers_no_throw (handlers : List ExitCallback)
    (h : ∀ c ∈ handlers, c.behavior.throwsNow = false) :
    invokeExitHandlers handlers
      = (handlers.map ExitCallback.id,
         Except.ok (handlers.map
           (fun c => (c.id, c.behavior.rejectReason)))) := by
  induction handlers with
  | nil => rfl
  | cons c rest ih =>
    have hc : c.behavior.throwsNow = false := h c (List.mem_cons_self c rest)
    have ih' := ih (fun x hx => h x (List.mem_cons_of_mem c hx))
    cases hb : c.behavior with
    | throwNow e => rw [hb] at hc; simp [CallbackBehavior.throwsNow] at hc
    | ok => simp [invokeExitHandlers, hb, ih', Except.map]
    | rejectLater e => simp [invokeExitHandlers, hb, ih', Except.map]

/-- C9 as amended: when no exit handler throws synchronously (all
failures are promise rejections), every handler is invoked in order,
each rejection is logged per-handler with its reason, and the
connection-close phase still runs; only a synchronous throw aborts the
sequence. -/
theorem C9_runExitHandlers_isolation (handlers : List ExitCallback)
    (pool : List InstanceConnection)
    (h : ∀ c ∈ handlers, c.behavior.throwsNow = false) :
    (runExitHandlers handlers pool).invoked = handlers.map ExitCallback.id
    ∧ (runExitHandlers handlers pool).logs
        = handlers.filterMap
            (fun c => (c.behavior.rejectReason).map
              (fun e => "[Exit Handler Error] " ++ e))
    ∧ (runExitHandlers handlers pool).closeStarted = true
    ∧ (runExitHandlers handlers pool).closeCalls
        = (closeInstanceConnections pool).closeCalls
    ∧ (runExitHandlers handlers pool).thrown
        = (closeInstanceConnections pool).thrown := by
  have hrun : runExitHandlers handlers pool
      = ⟨handlers.map ExitCallback.id,
         (handlers.map (fun c => (c.id, c.behavior.rejectReason))).filterMap
           (fun s => s.2.map (fun e => "[Exit Handler Error] " ++ e)),
         true,
         (closeInstanceConnections pool).closeCalls,
         (closeInstanceConnections pool).thrown⟩ := by
    rw [runExitHandlers, invokeExitHandlers_no_throw handlers h]
  rw [hrun, List.filterMap_map]
  exact ⟨rfl, rfl, rfl, rfl, rfl⟩

/-- Witness for C9's amended statement: one resolving and one
rejecting handler — both invoked, the rejection logged, the pool
closed. -/
theorem C9_runExitHandlers_isolation_witness :
    (runExitHandlers [⟨0, CallbackBehavior.ok⟩,
        ⟨1, CallbackBehavior.rejectLater "bad"⟩] [⟨3, none⟩]).invoked
      = [0, 1]
    ∧ (runExitHandlers [⟨0, CallbackBehavior.ok⟩,
        ⟨1, CallbackBehavior.rejectLater "bad"⟩] [⟨3, none⟩]).logs
      = ["[Exit Handler Error] bad"]
    ∧ (runExitHandlers [⟨0, CallbackBehavior.ok⟩,
        ⟨1, CallbackBehavior.rejectLater "bad"⟩] [⟨3, none⟩]).closeCalls
      = [3] := by
  have h := C9_runExitHandlers_isolation
    [⟨0, CallbackBehavior.ok⟩, ⟨1, CallbackBehavior.rejectLater "bad"⟩]
    [⟨3, none⟩] (by decide)
  exact ⟨h.1.trans (by decide), h.2.1.trans (by decide),
    h.2.2.2.1.trans (by decide)⟩

/-! ## The message box (`messageBox = new EventEmitter()`) -/

/-- A listener registered for one message type with
`messageBox.on(type, listener)` (`onMessage`).  `EventEmitter.on`
appends, so list order is registration order. -/
structure MessageBoxListener where
  id : ℕ
  behavior : CallbackBehavior
  deriving DecidableEq, Repr

/-- The call `messageBox.emit(type, payload)` over the listeners registered for
that type — Node `EventEmitter` semantics: each listener is called
synchronously in registration order; an exception thrown synchronously
by a listener propagates out of `emit`, and the listeners after it are
not called.  A listener whose returned promise later rejects does not
disturb dispatch. -/
def emitMessage : List MessageBoxListener → List ℕ × Option String
  | [] => ([], none)
  | l :: rest =>
    match l.behavior with
    | .throwNow e => ([l.id], some e)
    | _ =>
      let o := emitMessage rest
      (l.id :: o.1, o.2)

/-! ## C5: listener isolation on `emit` -/

/-- Counterexample to C5 as stated: with two listeners for one type
where the first throws synchronously, the second listener is never
invoked and the exception propagates back to the emitter. -/
theorem C5_emit_cex :
    emitMessage [⟨0, CallbackBehavior.throwNow "boom"⟩,
        ⟨1, CallbackBehavior.ok⟩]
      = ([0], some "boom") := by
  decide

/-- C5 as amended: `emit` invokes the type's listeners in registration
order; when no listener throws synchronously every listener is invoked
and nothing propagates to the emitter (asynchronous rejections
included); a listener that throws synchronously stops dispatch there
and its exception reaches the emitter. -/
theorem C5_emit_dispatch :
    (∀ ls : List MessageBoxListener,
      (∀ l ∈ ls, l.behavior.throwsNow = false) →
      emitMessage ls = (ls.map MessageBoxListener.id, none))
    ∧ ∀ (a b : List MessageBoxListener) (l : MessageBoxListener)
        (e : String),
        (∀ x ∈ a, x.behavior.throwsNow = false) →
        l.behavior = CallbackBehavior.throwNow e →
        emitMessage (a ++ l :: b)
          = (a.map MessageBoxListener.id ++ [l.id], some e) := by
  constructor
  · intro ls hok
    induction ls with
    | nil => rfl
    | cons l rest ih =>
      have hl : l.behavior.throwsNow = false :=
        hok l (List.mem_cons_self l rest)
      have ih' := ih (fun x hx => hok x (List.mem_cons_of_mem l hx))
      cases hb : l.behavior with
      | throwNow e => rw [hb] at hl; simp [CallbackBehavior.throwsNow] at hl
      | ok => simp [emitMessage, hb, ih']
      | rejectLater e => simp [emitMessage, hb, ih']
  · intro a b l e hok hl
    induction a with
    | nil => simp [emitMessage, hl]
    | cons x rest ih =>
      have hx : x.behavior.throwsNow = false :=
        hok x (List.mem_cons_self x rest)
      have ih' := ih (fun y hy => hok y (List.mem_cons_of_mem x hy))
      cases hb : x.behavior with
      | throwNow e2 => rw [hb] at hx; simp [CallbackBehavior.throwsNow] at hx
      | ok => simp [emitMessage, hb, ih']
      | rejectLater e2 => simp [emitMessage, hb, ih']

/-- Witness for C5's amended statement: an all-well-behaved listener
list dispatches fully; a throwing listener in the middle cuts dispatch
there. -/
theorem C5_emit_dispatch_witness :
    emitMessage [⟨0, CallbackBehavior.ok⟩,
        ⟨1, CallbackBehavior.rejectLater "late"⟩] = ([0, 1], none)
    ∧ emitMessage [⟨0, CallbackBehavior.ok⟩,
        ⟨1, CallbackBehavior.throwNow "mid"⟩, ⟨2, CallbackBehavior.ok⟩]
      = ([0, 1], some "mid") := by
  constructor
  · exact (C5_emit_dispatch.1 [⟨0, CallbackBehavior.ok⟩,
      ⟨1, CallbackBehavior.rejectLater "late"⟩] (by decide)).trans (by decide)
  · exact (C5_emit_dispatch.2 [⟨0, CallbackBehavior.ok⟩]
      [⟨2, CallbackBehavior.ok⟩] ⟨1, CallbackBehavior.throwNow "mid"⟩
      "mid" (by decide) rfl).trans (by decide)

/-! ## Termination-signal handling in `setupWorkerPool` -/

/-- One run of the closure `handleExitSignal(signal)` that
`setupWorkerPool` installs with `process.on`: it posts
`toMessage('shutdown', {})` to every worker of the pool. -/
def handleExitSignal (pool : List String) : List (String × JsObj) :=
  pool.map (fun w => (w, toMessage "shutdown" []))

/-- All `shutdown` messages posted across an execution in which the
listed termination signals are delivered.  `process.on` installs a
persistent handler and `setupWorkerPool` keeps no "already shutting
down" flag, so every delivered signal runs the broadcast again. -/
def signalBroadcasts (pool : List String) (signals : List String) :
    List (String × JsObj) :=
  signals.flatMap (fun _ => handleExitSignal pool)

/-! ## C2: at-most-once signal handling -/

/-- Counterexample to C2 as stated: with a one-worker pool, a second
`SIGINT` delivered during shutdown is not a no-op — the worker is sent
a second `shutdown` message, so the broadcast happens more than once. -/
theorem C2_signal_cex :
    (signalBroadcasts [workerKey 0] ["SIGINT", "SIGINT"]).length = 2
    ∧ ¬ (signalBroadcasts [workerKey 0] ["SIGINT", "SIGINT"]).length
        ≤ ([workerKey 0] : List String).length := by
  constructor
  · rfl
  · intro h
    rw [show (signalBroadcasts [workerKey 0]
      ["SIGINT", "SIGINT"]).length = 2 from rfl] at h
    rw [List.length_singleton] at h
    omega

/-- C2 as amended: termination signals are not deduplicated — every
delivered `SIGINT`/`SIGTERM` triggers a full `shutdown` broadcast, so
`k` delivered signals post exactly `k` messages to each pool worker
and `k * |pool|` messages in total. -/
theorem C2_signal_rebroadcast (pool : List String)
    (signals : List String) :
    (signalBroadcasts pool signals).length
        = signals.length * pool.length
    ∧ ∀ w ∈ pool,
        ((signalBroadcasts pool signals).filter
          (fun m => m.1 = w)).length
        ≥ signals.length := by
  constructor
  · rw [signalBroadcasts]
    induction signals with
    | nil => simp
    | cons s rest ih =>
      simp only [List.flatMap_cons, List.length_append, ih,
        List.length_cons]
      rw [handleExitSignal, List.length_map]
      ring
  · intro w hw
    rw [signalBroadcasts]
    induction signals with
    | nil => simp
    | cons s rest ih =>
      simp only [List.flatMap_cons, List.filter_append,
        List.length_append, List.length_cons]
      have hone : 1 ≤ ((handleExitSignal pool).filter
          (fun m => m.1 = w)).length := by
        have hmem : (w, toMessage "shutdown" [])
            ∈ (handleExitSignal pool).filter (fun m => m.1 = w) := by
          rw [List.mem_filter]
          exact ⟨List.mem_map.mpr ⟨w, hw, rfl⟩, by simp⟩
        exact List.length_pos.mpr (List.ne_nil_of_mem hmem)
      omega

/-- Witness for C2's amended statement: two signals over a two-worker
pool post four `shutdown` messages, two per worker. -/
theorem C2_signal_rebroadcast_witness :
    (signalBroadcasts [workerKey 0, workerKey 1]
        ["SIGINT", "SIGTERM"]).length = 2 * 2
    ∧ ((signalBroadcasts [workerKey 0, workerKey 1]
        ["SIGINT", "SIGTERM"]).filter
          (fun m => m.1 = workerKey 0)).length ≥ 2 := by
  have h := C2_signal_rebroadcast [workerKey 0, workerKey 1]
    ["SIGINT", "SIGTERM"]
  exact ⟨h.1, h.2 (workerKey 0) (by simp)⟩

/-! ## Worker startup (`runWorker` / `loadRoutes` in
`src/init/worker.ts`) -/

/-- What one worker startup did: which route modules had an
import-and-register attempt started, the `console.warn` lines written
(tag and reason as passed to `console.warn`), and whether `serve` was
reached. -/
structure WorkerRun where
  attempted : List String
  logs : List (String × String)
  serverStarted : Bool
  deriving DecidableEq, Repr

/-- The function `loadRoutes(routerNames)`: builds one import-then-`default()`
promise per name and pushes them all onto `pendingPromises`.  The
argument `outcome` gives each module's settle result — `none` for a
successful import and registration, `some reason` when either step
fails.  The promises carry no module name, only the eventual reason. -/
def loadRoutes (outcome : String → Option String) (names : List String) :
    List (Option String) :=
  names.map outcome

/-- The function `runWorker(message)`: calls `loadRoutes`, awaits
`Promise.allSettled(pendingPromises)` — which settles every attempt,
success or failure — logs each rejected result as
`console.warn('Route registration failed:', result.reason)`, and then
starts the HTTP listener (`serve({ fetch, reusePort: true })`)
unconditionally. -/
def runWorker (outcome : String → Option String) (names : List String) :
    WorkerRun :=
  { attempted := names
    logs := (loadRoutes outcome names).filterMap
      (fun r => r.map (fun e => ("Route registration failed:", e)))
    serverStarted := true }

/-- A module environment where exactly `alpha` fails to register. -/
def routesFailingAlpha : String → Option String :=
  fun n => if n = "alpha" then some "err" else none

/-- A module environment where exactly `beta` fails to register. -/
def routesFailingBeta : String → Option String :=
  fun n => if n = "beta" then some "err" else none

/-! ## C6: route-registration fan-in -/

/-- Counterexample to C6 as stated: the warning logged for a failed
attempt does not carry the originating module name — a run where
`alpha` fails and a run where `beta` fails (with the same underlying
cause) produce identical logs, so the log cannot identify the failing
module. -/
theorem C6_runWorker_cex :
    runWorker routesFailingAlpha ["alpha", "beta"]
        = runWorker routesFailingBeta ["alpha", "beta"]
    ∧ routesFailingAlpha "alpha" ≠ routesFailingBeta "alpha"
    ∧ (runWorker routesFailingAlpha ["alpha", "beta"]).logs
        = [("Route registration failed:", "err")] := by
  refine ⟨?_, by decide, by decide⟩
  decide

/-- C6 as amended: the worker attempts every named module, waits for
all attempts to settle (never aborting on a failure), logs one warning
per failed attempt carrying its underlying cause (but not the module
name), and starts the HTTP listener regardless of how many attempts
failed. -/
theorem C6_runWorker_settles (outcome : String → Option String)
    (names : List String) :
    (runWorker outcome names).attempted = names
    ∧ (runWorker outcome names).serverStarted = true
    ∧ (runWorker outcome names).logs
        = names.filterMap (fun n => (outcome n).map
            (fun e => ("Route registration failed:", e)))
    ∧ ∀ n ∈ names, ∀ e, outcome n = some e →
        ("Route registration failed:", e) ∈ (runWorker outcome names).logs := by
  refine ⟨rfl, rfl, ?_, ?_⟩
  · rw [runWorker, loadRoutes, List.filterMap_map]; rfl
  · intro n hn e he
    rw [runWorker, loadRoutes, List.filterMap_map]
    exact List.mem_filterMap.mpr ⟨n, hn, by simp [Function.comp, he]⟩

/-- Witness for C6's amended statement: a list with one succeeding and
one failing module — both attempted, the failure logged with its
cause, the listener started. -/
theorem C6_runWorker_settles_witness :
    (runWorker routesFailingBeta ["alpha", "beta"]).attempted
        = ["alpha", "beta"]
    ∧ (runWorker routesFailingBeta ["alpha", "beta"]).serverStarted = true
    ∧ ("Route registration failed:", "err")
        ∈ (runWorker routesFailingBeta ["alpha", "beta"]).logs := by
  have h := C6_runWorker_settles routesFailingBeta ["alpha", "beta"]
  exact ⟨h.1, h.2.1, h.2.2.2 "beta" (by decide) "err" (by decide)⟩

/-! ## The resource-registry composables (`useCache`, `useQueue`,
`useMySQL`) -/

/-- The `instanceContext` entries the composables touch, instrumented
for the proofs: `nextId` generates object identities, and the three
counters record how often each constructor ran. -/
structure RegState where
  cacheEntry : Option ℕ
  queueEntry : Option ℕ
  nextId : ℕ
  cacheConstructions : ℕ
  queueConstructions : ℕ
  mysqlConstructions : ℕ
  deriving DecidableEq, Repr

/-- The function `useCache()` from `src/init/cache.ts`: returns the
`instanceContext.get('Cache')` entry when present; otherwise
constructs the client synchronously (`new Redis(...)`, `new Cache`),
stores it under `'Cache'`, and returns it.  There is no suspension
point between check and store. -/
def useCache (s : RegState) : ℕ × RegState :=
  match s.cacheEntry with
  | some c => (c, s)
  | none =>
    (s.nextId,
     { s with cacheEntry := some s.nextId, nextId := s.nextId + 1,
              cacheConstructions := s.cacheConstructions + 1 })

/-- The `instanceContext.has('Queue')` check that opens `useQueue()`
in `src/init/queue.ts`. -/
def useQueueCheck (s : RegState) : Option ℕ := s.queueEntry

/-- The remainder of `useQueue()` once its check has missed: it awaits
`amqp.connect(amqpUrl)` and `client.createChannel()` — suspension
points that yield the event loop — then constructs the `Queue`, stores
it under `'Queue'`, and returns it. -/
def useQueueFinish (s : RegState) : ℕ × RegState :=
  (s.nextId,
   { s with queueEntry := some s.nextId, nextId := s.nextId + 1,
            queueConstructions := s.queueConstructions + 1 })

/-- A whole `useQueue()` call that runs without interleaving: no other
call enters between its check and its store. -/
def useQueue (s : RegState) : ℕ × RegState :=
  match useQueueCheck s with
  | some q => (q, s)
  | none => useQueueFinish s

/-- Two `useQueue()` calls issued in the same synchronous turn: both
`has('Queue')` checks run before either in-flight construction
completes (each construction sits behind the `await`s), then both
constructions finish and store, the second overwriting the first. -/
def useQueuePairSameTurn (s : RegState) : (ℕ × ℕ) × RegState :=
  match useQueueCheck s with
  | some q => ((q, q), s)
  | none =>
    let a := useQueueFinish s
    let b := useQueueFinish a.2
    ((a.1, b.1), b.2)

/-- The function `useMySQL()` from `src/init/mysql.ts`: `return new MySQL();` —
a fresh cluster object on every call; nothing is read from or stored
into `instanceContext`. -/
def useMySQL (s : RegState) : ℕ × RegState :=
  (s.nextId,
   { s with nextId := s.nextId + 1,
            mysqlConstructions := s.mysqlConstructions + 1 })

/-! ## C4: construct-once resource composables -/

/-- Counterexample to C4 as stated: from a fresh registry, two
`useMySQL()` calls return distinct instances (the cited factory never
memoizes), and two `useQueue()` calls overlapping in one synchronous
turn construct twice and return distinct instances. -/
theorem C4_registry_cex :
    (useMySQL (useMySQL ⟨none, none, 0, 0, 0, 0⟩).2).1
        ≠ (useMySQL ⟨none, none, 0, 0, 0, 0⟩).1
    ∧ (useMySQL (useMySQL ⟨none, none, 0, 0, 0, 0⟩).2).2.mysqlConstructions
        = 2
    ∧ (useQueuePairSameTurn ⟨none, none, 0, 0, 0, 0⟩).1.1
        ≠ (useQueuePairSameTurn ⟨none, none, 0, 0, 0, 0⟩).1.2
    ∧ (useQueuePairSameTurn ⟨none, none, 0, 0, 0, 0⟩).2.queueConstructions
        = 2 := by
  decide

/-- C4 as amended: `useCache` is construct-once — a second call
returns the identical instance and does not construct again — and
`useQueue` is construct-once for calls that do not overlap an
in-flight construction; the cited `useMySQL`, by contrast, constructs
a fresh instance on every call. -/
theorem C4_registry_memoization (s : RegState) :
    (useCache (useCache s).2).1 = (useCache s).1
    ∧ (useCache (useCache s).2).2 = (useCache s).2
    ∧ (useQueue (useQueue s).2).1 = (useQueue s).1
    ∧ (useQueue (useQueue s).2).2 = (useQueue s).2
    ∧ (useMySQL (useMySQL s).2).1 ≠ (useMySQL s).1 := by
  refine ⟨?_, ?_, ?_, ?_, ?_⟩
  · cases hc : s.cacheEntry <;> simp [useCache, hc]
  · cases hc : s.cacheEntry <;> simp [useCache, hc]
  · cases hq : s.queueEntry <;>
      simp [useQueue, useQueueCheck, useQueueFinish, hq]
  · cases hq : s.queueEntry <;>
      simp [useQueue, useQueueCheck, useQueueFinish, hq]
  · simp [useMySQL]

/-! ## `setupWorkerPool`: the primary's shutdown tracking -/

/-- A message arriving at the primary on a worker channel, as
`handleWorkerMessage` destructures it: the sending worker's pool key,
the `type` field, and the remaining payload. -/
structure WorkerMessage where
  sender : String
  type : String
  payload : JsObj
  deriving DecidableEq, Repr

/-- The primary's observable outcome of processing a delivery trace:
the messages re-emitted onto the local message box, the index of the
message (if any) at which the shutdown counter reached the pool size
and the completion sequence (exit handlers, then `process.exit`)
fired, and the exit status code passed to `process.exit`. -/
structure PrimaryOutcome where
  forwarded : List (String × JsObj)
  exitedAt : Option ℕ
  exitCode : Option ℕ
  deriving DecidableEq, Repr

/-- The handler `handleWorkerMessage` from `setupWorkerPool`, folded over the
trace of messages the primary receives, with `count` acknowledgements
(`shutdownCount`) already recorded and `workerCount` fixed at
`workerPool.size`: a message whose type is not `shutdown-complete` is
re-emitted unmodified; a `shutdown-complete` increments the counter
and, when the incremented counter is no longer below `workerCount`,
the primary runs its exit handlers and calls `process.exit(0)`, ending
processing. -/
def handleWorkerMessages (workerCount : ℕ) (count : ℕ) :
    List WorkerMessage → PrimaryOutcome
  | [] => ⟨[], none, none⟩
  | m :: rest =>
    if m.type ≠ "shutdown-complete" then
      let o := handleWorkerMessages workerCount count rest
      ⟨(m.type, m.payload) :: o.forwarded, o.exitedAt.map (· + 1),
        o.exitCode⟩
    else if count + 1 < workerCount then
      let o := handleWorkerMessages workerCount (count + 1) rest
      ⟨o.forwarded, o.exitedAt.map (· + 1), o.exitCode⟩
    else
      ⟨[], some 0, some 0⟩

/-- The number of `shutdown-complete` messages in a trace. -/
def ackCount (msgs : List WorkerMessage) : ℕ :=
  (msgs.filter (fun m => m.type = "shutdown-complete")).length

theorem ackCount_cons_ack (m : WorkerMessage) (l : List WorkerMessage)
    (h : m.type = "shutdown-complete") :
    ackCount (m :: l) = ackCount l + 1 := by
  simp [ackCount, List.filter_cons, h]

theorem ackCount_cons_other (m : WorkerMessage) (l : List WorkerMessage)
    (h : ¬ m.type = "shutdown-complete") :
    ackCount (m :: l) = ackCount l := by
  simp [ackCount, List.filter_cons, h]

theorem handleWorkerMessages_exit_spec (W : ℕ)
    (msgs : List WorkerMessage) : ∀ (count i : ℕ), count < W →
    (handleWorkerMessages W count msgs).exitedAt = some i →
    (handleWorkerMessages W count msgs).exitCode = some 0
    ∧ ackCount (msgs.take (i + 1)) + count = W := by
  induction msgs with
  | nil =>
    intro count i hcw h
    exact absurd h (by simp [handleWorkerMessages])
  | cons m rest ih =>
    intro count i hcw h
    by_cases hm : m.type = "shutdown-complete"
    · by_cases hlt : count + 1 < W
      · simp only [handleWorkerMessages, hm, ne_eq, not_true_eq_false,
          if_false, hlt, if_true] at h ⊢
        obtain ⟨i2, hi2, rfl⟩ := Option.map_eq_some'.mp h
        obtain ⟨hcode, hcnt⟩ := ih (count + 1) i2 hlt hi2
        refine ⟨hcode, ?_⟩
        rw [List.take_succ_cons, ackCount_cons_ack m _ hm]
        omega
      · simp only [handleWorkerMessages, hm, ne_eq, not_true_eq_false,
          if_false, hlt] at h ⊢
        have hi : i = 0 := by
          have := h.symm
          simpa using this
        subst hi
        refine ⟨by simp, ?_⟩
        rw [List.take_succ_cons, List.take_zero,
          ackCount_cons_ack m _ hm]
        simp only [ackCount, List.filter_nil, List.length_nil]
        omega
    · simp only [handleWorkerMessages, hm, ne_eq, not_false_eq_true,
        if_true] at h ⊢
      obtain ⟨i2, hi2, rfl⟩ := Option.map_eq_some'.mp h
      obtain ⟨hcode, hcnt⟩ := ih count i2 hcw hi2
      refine ⟨hcode, ?_⟩
      rw [List.take_succ_cons, ackCount_cons_other m _ hm]
      omega

theorem handleWorkerMessages_exits_iff (W : ℕ)
    (msgs : List WorkerMessage) : ∀ count : ℕ, count < W →
    ((handleWorkerMessages W count msgs).exitedAt.isSome
      ↔ W ≤ count + ackCount msgs) := by
  induction msgs with
  | nil =>
    intro count hcw
    simp only [handleWorkerMessages, Option.isSome_none,
      Bool.false_eq_true, false_iff, not_le, ackCount, List.filter_nil,
      List.length_nil, Nat.add_zero]
    omega
  | cons m rest ih =>
    intro count hcw
    by_cases hm : m.type = "shutdown-complete"
    · by_cases hlt : count + 1 < W
      · simp only [handleWorkerMessages, hm, ne_eq, not_true_eq_false,
          if_false, hlt, if_true, Option.isSome_map']
        rw [ih (count + 1) hlt, ackCount_cons_ack m _ hm]
        omega
      · simp only [handleWorkerMessages, hm, ne_eq, not_true_eq_false,
          if_false, hlt, if_false, Option.isSome_some, true_iff]
        rw [ackCount_cons_ack m _ hm]
        omega
    · simp only [handleWorkerMessages, hm, ne_eq, not_false_eq_true,
        if_true, Option.isSome_map']
      rw [ih count hcw, ackCount_cons_other m _ hm]

/-! ## C1: shutdown completion gated by the acknowledgement counter -/

/-- The acknowledgements a worker posts back: `setupProcess` installs
a persistent `shutdown` listener (`onMessage`, not a once-listener)
that runs the worker's exit handlers and posts one
`shutdown-complete`, so a worker that receives `k` `shutdown`
messages posts `k` acknowledgements. -/
def workerAcks (key : String) (shutdownsReceived : ℕ) :
    List WorkerMessage :=
  List.replicate shutdownsReceived ⟨key, "shutdown-complete", []⟩

/-- Counterexample to C1 as stated: in the execution where a second
termination signal re-broadcasts `shutdown` (see the `handleExitSignal`
model), each of the two workers receives two `shutdown` messages and
posts two acknowledgements; when both of `worker#0`'s acknowledgements
are delivered first, the counter reaches the pool size and the primary
completes shutdown at trace index 1 — while `worker#1` has not
acknowledged at all, a strict subset of the pool. -/
theorem C1_primary_shutdown_cex :
    ((signalBroadcasts [workerKey 0, workerKey 1]
        ["SIGINT", "SIGINT"]).filter
          (fun m => m.1 = workerKey 0)).length = 2
    ∧ (handleWorkerMessages 2 0
        (workerAcks (workerKey 0) 2 ++ workerAcks (workerKey 1) 2)).exitedAt
      = some 1
    ∧ ∀ m ∈ (workerAcks (workerKey 0) 2
        ++ workerAcks (workerKey 1) 2).take 2,
        m.sender = workerKey 0 := by
  refine ⟨by decide, by decide, by decide⟩

/-- C1 as amended: the primary's shutdown completion (exit handlers,
then `process.exit(0)`) fires exactly when the count of received
`shutdown-complete` messages reaches the pool size; and provided every
acknowledgement comes from a pool worker and no worker acknowledges
twice (as when only a single termination signal is delivered),
completion happens only after every worker's acknowledgement. -/
theorem C1_primary_shutdown_gate (pool : List String)
    (msgs : List WorkerMessage)
    (hnd : pool.Nodup) (hpos : 1 ≤ pool.length)
    (hsend : ∀ m ∈ msgs, m.type = "shutdown-complete" → m.sender ∈ pool)
    (honce : ((msgs.filter (fun m => m.type = "shutdown-complete")).map
        WorkerMessage.sender).Nodup) :
    ((handleWorkerMessages pool.length 0 msgs).exitedAt.isSome
        ↔ pool.length ≤ ackCount msgs)
    ∧ ∀ i, (handleWorkerMessages pool.length 0 msgs).exitedAt = some i →
        (handleWorkerMessages pool.length 0 msgs).exitCode = some 0
        ∧ ackCount (msgs.take (i + 1)) = pool.length
        ∧ ∀ w ∈ pool, ∃ m ∈ msgs.take (i + 1),
            m.sender = w ∧ m.type = "shutdown-complete" := by
  constructor
  · simpa using handleWorkerMessages_exits_iff pool.length msgs 0 hpos
  · intro i hexit
    obtain ⟨hcode, hcnt⟩ :=
      handleWorkerMessages_exit_spec pool.length msgs 0 i hpos hexit
    rw [Nat.add_zero] at hcnt
    refine ⟨hcode, hcnt, ?_⟩
    intro w hw
    set P := msgs.take (i + 1) with hP
    set ackers := (P.filter
      (fun m => m.type = "shutdown-complete")).map WorkerMessage.sender
      with hackers
    have hsubl : (P.filter (fun m => m.type = "shutdown-complete")).Sublist
        (msgs.filter (fun m => m.type = "shutdown-complete")) :=
      (List.take_sublist (i + 1) msgs).filter _
    have hnodup : ackers.Nodup := honce.sublist (hsubl.map _)
    have hlen : ackers.length = pool.length := by
      rw [hackers, List.length_map]
      exact hcnt
    have hsubset : ∀ x ∈ ackers, x ∈ pool := by
      intro x hx
      obtain ⟨m, hmf, rfl⟩ := List.mem_map.mp hx
      obtain ⟨hmP, hmt⟩ := List.mem_filter.mp hmf
      exact hsend m (List.take_subset (i + 1) msgs hmP)
        (by simpa using hmt)
    have hfin : pool.toFinset ⊆ ackers.toFinset := by
      have hsub2 : ackers.toFinset ⊆ pool.toFinset := by
        intro x hx
        exact List.mem_toFinset.mpr (hsubset x (List.mem_toFinset.mp hx))
      have hcard : pool.toFinset.card ≤ ackers.toFinset.card := by
        rw [List.toFinset_card_of_nodup hnodup,
          List.toFinset_card_of_nodup hnd, hlen]
      have heq := Finset.eq_of_subset_of_card_le hsub2 hcard
      intro x hx
      rwa [heq]
    have hwack : w ∈ ackers :=
      List.mem_toFinset.mp (hfin (List.mem_toFinset.mpr hw))
    obtain ⟨m, hmf, hms⟩ := List.mem_map.mp hwack
    obtain ⟨hmP, hmt⟩ := List.mem_filter.mp hmf
    exact ⟨m, hmP, hms, by simpa using hmt⟩

/-- Witness for C1's amended statement: a two-worker pool whose
workers acknowledge once each — the primary completes at the second
acknowledgement, with status 0, after both workers acknowledged. -/
theorem C1_primary_shutdown_gate_witness :
    (handleWorkerMessages
        ([workerKey 0, workerKey 1] : List String).length 0
        [⟨workerKey 0, "shutdown-complete", []⟩,
         ⟨workerKey 1, "shutdown-complete", []⟩]).exitedAt = some 1
    ∧ (handleWorkerMessages
        ([workerKey 0, workerKey 1] : List String).length 0
        [⟨workerKey 0, "shutdown-complete", []⟩,
         ⟨workerKey 1, "shutdown-complete", []⟩]).exitCode = some 0
    ∧ ∀ w ∈ ([workerKey 0, workerKey 1] : List String),
        ∃ m ∈ ([⟨workerKey 0, "shutdown-complete", []⟩,
          ⟨workerKey 1, "shutdown-complete", []⟩] :
            List WorkerMessage).take 2,
          m.sender = w ∧ m.type = "shutdown-complete" := by
  have hexit : (handleWorkerMessages
      ([workerKey 0, workerKey 1] : List String).length 0
      [⟨workerKey 0, "shutdown-complete", []⟩,
       ⟨workerKey 1, "shutdown-complete", []⟩]).exitedAt = some 1 := by
    decide
  have h := (C1_primary_shutdown_gate [workerKey 0, workerKey 1]
    [⟨workerKey 0, "shutdown-complete", []⟩,
     ⟨workerKey 1, "shutdown-complete", []⟩]
    (by decide) (by decide) (by decide) (by decide)).2 1 hexit
  exact ⟨hexit, h.1, h.2.2⟩

end Asuna
